import Mathlib

set_option maxHeartbeats 1000000

/-!
# Verification of `pygeo/parameterization/DVGeoSketch.py`

A shallow embedding of the `DVGeoSketch` abstract base class — a design-variable
registry and mapper sitting between a parametric CAD engine and a gradient-based
optimizer — together with proofs about its operations.

Conventions of the embedding:

* Python numeric values are modelled as exact rationals (`ℚ`); numeric vectors as
  `List ℚ`.  The properties verified here are exact dataflow properties of the
  coordination layer, not floating-point rounding facts.
* A Python `dict` (insertion ordered) is an association list `List (String × V)`
  whose keys are pairwise distinct; the distinctness invariant is carried as an
  explicit hypothesis where a proof needs it.
* Fallible Python code (`KeyError`, `ZeroDivisionError`, attribute access on
  `None`, an I/O error raised by an external writer) is modelled with
  `Except PyError`.
* External collaborators (the optimizer problem object, the Tecplot writer) are
  modelled by traces of the registration / file events the code emits at them.
* A handful of methods used by this class live elsewhere in the repository
  (`getNDV`, `convertDictToSensitivity`, `convertSensitivityToDict`,
  `mapVecToDVGeo`, `mapXDictToComp`, the assignment of the composite DV,
  `addVariable`); each is modelled from the specification and marked as such in
  its doc comment, or taken as a parameter where the specification leaves it
  open.
-/

/-! ## Data model -/

/-- Python runtime errors raised (directly or by collaborators) in the embedded code. -/
inductive PyError where
  | keyError
  | attributeError
  | zeroDivisionError
  | writeError
  deriving DecidableEq, Repr

/-- A Python `dict` with string keys: an insertion-ordered association list. -/
abbrev Dict (V : Type) := List (String × V)

/-- `d[k]` lookup: the first binding of `k`, if any. -/
def dictGet {V : Type} (k : String) : Dict V → Option V
  | [] => none
  | p :: rest => if p.1 = k then some p.2 else dictGet k rest

/-- Key removal, as performed by `dict.pop(k)`: drop the binding of `k`,
keeping the order of the remaining bindings. -/
def dictRemove {V : Type} (k : String) : Dict V → Dict V
  | [] => []
  | p :: rest => if p.1 = k then rest else p :: dictRemove k rest

/-- Item assignment `d[k] = v`: overwrite in place if the key exists
(keeping its position, as Python does), otherwise append at the end. -/
def dictSet {V : Type} (k : String) (v : V) : Dict V → Dict V
  | [] => [(k, v)]
  | p :: rest => if p.1 = k then (k, v) :: rest else p :: dictSet k v rest

/-- The keys of a dictionary, in order. -/
def dictKeys {V : Type} (d : Dict V) : List String := d.map Prod.fst

/-- A registered design variable (spec data model): unique name, value vector,
lower/upper bound vectors, scale vector. -/
structure DesignVariable where
  name : String
  value : List ℚ
  lower : List ℚ
  upper : List ℚ
  scale : List ℚ
  deriving DecidableEq, Repr

/-- `nVal`, the count of a design variable: the length of its value vector
(spec data model). -/
def DesignVariable.nVal (dv : DesignVariable) : ℕ := dv.value.length

/-- The composite design variable: a single synthetic variable plus the linear
map `u` (a matrix, stored as a list of rows) from composite space to full DV
space. -/
structure CompositeDV where
  name : String
  value : List ℚ
  lower : List ℚ
  upper : List ℚ
  scale : List ℚ
  u : List (List ℚ)
  deriving DecidableEq, Repr

/-- `nVal` of the composite DV: the length of its value vector. -/
def CompositeDV.nVal (c : CompositeDV) : ℕ := c.value.length

/-- Matrix–vector product: each row dotted with the vector. -/
def matVecMul (u : List (List ℚ)) (v : List ℚ) : List ℚ :=
  u.map (fun row => (List.zipWith (fun a b => a * b) row v).sum)

/-- Modelled from the spec: `mapVecToDVGeo` is defined outside this file.  The
specification derives the individual DVs as `u @ compositeValue`, so the
composite-to-full conversion multiplies the stored map `u` by the vector. -/
def CompositeDV.mapVecToDVGeo (c : CompositeDV) (v : List ℚ) : List ℚ :=
  matVecMul c.u v

/-- The state of a `DVGeoSketch` object.

The communicator handle is an opaque pass-through and plays no role in any
operation of this file, so it is omitted.  The source reads the composite DV
through two attribute names (`self.compositeDVs` in `getVarNames` and in the
variable-group registration, `self.DVComposite` in `mapXDictToDVGeo` and in the
constraint-group registration); the attribute is assigned by subclass code
outside this file, and the specification's data model has a single
`CompositeDV` object, so the state carries one optional field used for both. -/
structure DVGeoSketch where
  fileName : String
  modelScale : ℚ
  meshScale : ℚ
  projTol : ℚ
  updatedJac : Dict Bool
  DVs : Dict DesignVariable
  useCompostiveDVs : Bool
  DVComposite : Option CompositeDV
  deriving DecidableEq, Repr

/-! ## Operations -/

/-- `DVGeoSketch.__init__(fileName, comm, scale, projTol)`.

Python evaluates `self.meshScale = 1.0 / scale`, which raises
`ZeroDivisionError` exactly when `scale == 0`; rational division in Lean is
total, so that error path is written out explicitly. -/
def DVGeoSketch.init (fileName : String) (scale : ℚ) (projTol : ℚ) :
    Except PyError DVGeoSketch :=
  if scale = 0 then .error .zeroDivisionError
  else
    .ok { fileName := fileName
          modelScale := scale
          meshScale := 1 / scale
          projTol := projTol * (1 / scale)
          updatedJac := []
          DVs := []
          useCompostiveDVs := false
          DVComposite := none }

/-- Modelled from the spec: `addVariable` is abstract here (subclasses insert a
new `DesignVariable` into the registry); the registry is an insertion-ordered
map, so insertion appends the fresh binding at the end. -/
def DVGeoSketch.addVariable (st : DVGeoSketch) (dv : DesignVariable) :
    DVGeoSketch :=
  { st with DVs := st.DVs ++ [(dv.name, dv)] }

/-- Modelled from the spec: `getNDV` is defined outside this file; the
specification uses it as "the total number of individual DV scalars". -/
def DVGeoSketch.getNDV (st : DVGeoSketch) : ℕ :=
  (st.DVs.map (fun p => p.2.nVal)).sum

/-- Modelled from the spec: `convertDictToSensitivity` is defined outside this
file; the specification describes its result as the "concatenated lower/upper
bounds of all individual DVs", i.e. the per-DV vectors of the dictionary
flattened in registry order. -/
def DVGeoSketch.convertDictToSensitivity (st : DVGeoSketch)
    (d : Dict (List ℚ)) : List ℚ :=
  (st.DVs.map (fun p => (dictGet p.1 d).getD [])).flatten

/-- Splitting of a full-space vector into per-DV chunks, keyed by the DV names,
in registry order. -/
def splitByDVs : Dict DesignVariable → List ℚ → Dict (List ℚ)
  | [], _ => []
  | p :: rest, v => (p.1, v.take p.2.nVal) :: splitByDVs rest (v.drop p.2.nVal)

/-- Modelled from the spec: `convertSensitivityToDict` (called with
`useCompositeNames=False`, `out1D=True`) is defined outside this file; the
specification describes its output as the full-space vector "expanded into its
full per-DV ... representation", i.e. split into per-DV chunks keyed by the
individual DV names. -/
def DVGeoSketch.convertSensitivityToDict (st : DVGeoSketch) (vec : List ℚ) :
    Dict (List ℚ) :=
  splitByDVs st.DVs vec

/-- `DVGeoSketch.getValues()`.

`mapXDictToComp` (invoked when composite mode is active) is defined outside
this file and the specification explicitly leaves its exact output open, so it
is a parameter: theorems about the non-composite path hold for any choice. -/
def DVGeoSketch.getValues (st : DVGeoSketch)
    (mapXDictToComp : Dict (List ℚ) → Dict (List ℚ)) : Dict (List ℚ) :=
  let dvDict := st.DVs.foldl (fun acc p => dictSet p.1 p.2.value acc) []
  if st.useCompostiveDVs then mapXDictToComp dvDict else dvDict

/-- `DVGeoSketch.getVarNames(pyOptSparse=False)`.

When the composite branch reads `self.compositeDVs.name` while the composite
has never been assigned (it is `None`), Python raises `AttributeError`. -/
def DVGeoSketch.getVarNames (st : DVGeoSketch) (pyOptSparse : Bool) :
    Except PyError (List String) :=
  if !pyOptSparse || !st.useCompostiveDVs then
    .ok (dictKeys st.DVs)
  else
    match st.DVComposite with
    | none => .error .attributeError
    | some c => .ok [c.name]

/-- The registration calls `addVariablesPyOpt` makes on the external optimizer
problem object, in order: `addVarGroup(name, nVal, "c", value, lower, upper,
scale)` and `addConGroup(name, size, lower, upper, scale, linear, wrt,
jac={jacKey: jac})`. -/
inductive OptEvent where
  | varGroup (name : String) (nVal : ℕ) (value lower upper scale : List ℚ)
  | conGroup (name : String) (size : ℕ) (lower upper : List ℚ) (scale : ℚ)
      (linear : Bool) (wrt : String) (jacKey : String) (jac : List (List ℚ))
  deriving DecidableEq, Repr

/-- `DVGeoSketch.addVariablesPyOpt(optProb)`.

Returns the trace of registrations made on `optProb`.  In the composite branch
the per-DV bound dictionaries are built by the source's loops
`lb[dvName] = dv.lower` / `ub[dvName] = dv.upper` over the registry, flattened
by `convertDictToSensitivity`; the constraint group is registered under the
name `f"{composite}_con"` with the stored map `u` as its Jacobian, after which
the method returns without touching the individual DVs. -/
def DVGeoSketch.addVariablesPyOpt (st : DVGeoSketch) :
    Except PyError (List OptEvent) :=
  if st.useCompostiveDVs then
    match st.DVComposite with
    | none => .error .attributeError
    | some dv =>
      let lbDict := st.DVs.foldl (fun acc p => dictSet p.1 p.2.lower acc) []
      let ubDict := st.DVs.foldl (fun acc p => dictSet p.1 p.2.upper acc) []
      let lb := st.convertDictToSensitivity lbDict
      let ub := st.convertDictToSensitivity ubDict
      .ok [.varGroup dv.name dv.nVal dv.value dv.lower dv.upper dv.scale,
           .conGroup (dv.name ++ "_con") st.getNDV lb ub 1 true
             dv.name dv.name dv.u]
  else
    .ok (st.DVs.map (fun p =>
      .varGroup p.2.name p.2.nVal p.2.value p.2.lower p.2.upper p.2.scale))

/-- Result of a call to `mapXDictToDVGeo`, together with the caller's
dictionary object as it stands after the call.

Line 102 of the source rebinds the local name `inDict` to
`copy.deepcopy(inDict)`; every subsequent mutating operation (`pop`) acts on
that fresh copy, so the embedding threads the caller's object through each
branch separately from the copy being mutated. -/
structure MapXResult where
  result : Except PyError (Dict (List ℚ))
  callerDict : Dict (List ℚ)
  deriving Repr

/-- `DVGeoSketch.mapXDictToDVGeo(inDict)`.

The `print` call reads the dictionary and writes to stdout only.
`inDict.pop(self.DVComposite.name)` raises `AttributeError` if the composite
was never assigned, `KeyError` if the key is absent; otherwise it removes that
binding from the (copied) dictionary and returns its value.  The popped value
is converted to full space by `mapVecToDVGeo` and split into per-DV entries by
`convertSensitivityToDict`, then the remaining input keys are merged in by
`for key in inDict: outDict[key] = inDict[key]`. -/
def DVGeoSketch.mapXDictToDVGeoTracked (st : DVGeoSketch)
    (inDict : Dict (List ℚ)) : MapXResult :=
  let caller := inDict
  let localDict := inDict
  match st.DVComposite with
  | none => { result := .error .attributeError, callerDict := caller }
  | some comp =>
    match dictGet comp.name localDict with
    | none => { result := .error .keyError, callerDict := caller }
    | some userVec =>
      let rest := dictRemove comp.name localDict
      let outVec := comp.mapVecToDVGeo userVec
      let outDict := st.convertSensitivityToDict outVec
      { result := .ok (rest.foldl (fun acc p => dictSet p.1 p.2 acc) outDict),
        callerDict := caller }

/-- The value `mapXDictToDVGeo` returns (or the error it raises). -/
def DVGeoSketch.mapXDictToDVGeo (st : DVGeoSketch) (inDict : Dict (List ℚ)) :
    Except PyError (Dict (List ℚ)) :=
  (st.mapXDictToDVGeoTracked inDict).result

/-- A 3-D surface point. -/
abbrev Point3 := ℚ × ℚ × ℚ

/-- The calls `writePointSet` makes on the external Tecplot file collaborator,
in order: `openTecplot(fileName, ndim)`, `writeTecplot1D(f, zoneName, coords)`,
`closeTecplot(f)`. -/
inductive FileEvent where
  | opened (fileName : String) (ndim : ℕ)
  | wrote (zoneName : String) (coords : List Point3)
  | closed
  deriving DecidableEq, Repr

/-- `DVGeoSketch.writePointSet(name, fileName)`.

`update` is the subclass-provided point-set update hook returning the current
coordinates of the named point set.  `writeOk` models whether the external
`writeTecplot1D` call succeeds or raises.  The returned trace lists the calls
made on the file handle, in order; the method body has no `try/finally`, so a
raise inside `writeTecplot1D` aborts the method there and the later
`closeTecplot` call never appears in the trace. -/
def writePointSet (update : String → List Point3) (writeOk : Bool)
    (name fileName : String) : Except PyError Unit × List FileEvent :=
  let coords := update name
  let outName := fileName ++ "_" ++ name ++ ".dat"
  if writeOk then
    (.ok (), [.opened outName 3, .wrote name coords, .closed])
  else
    (.error .writeError, [.opened outName 3])

/-! ## Concrete example states (the specification's scenario) -/

/-- Example design variable `"twist"` from the specification's scenario. -/
def dvTwist : DesignVariable :=
  { name := "twist", value := [0, 1, 2], lower := [-5, -5, -5],
    upper := [5, 5, 5], scale := [1, 1, 1] }

/-- Example design variable `"shape"` from the specification's scenario. -/
def dvShape : DesignVariable :=
  { name := "shape", value := [1/2], lower := [-1], upper := [1], scale := [1] }

/-- Example composite DV with a 4×2 map `u`, from the specification's scenario. -/
def compExample : CompositeDV :=
  { name := "composite", value := [0, 0], lower := [-10, -10],
    upper := [10, 10], scale := [1, 1],
    u := [[1, 0], [0, 1], [1, 0], [0, 1]] }

/-- Example registry state in composite mode, holding `"twist"` and `"shape"`. -/
def stExample : DVGeoSketch :=
  { fileName := "wing.csm", modelScale := 1, meshScale := 1, projTol := 1/100,
    updatedJac := [], DVs := [("twist", dvTwist), ("shape", dvShape)],
    useCompostiveDVs := true, DVComposite := some compExample }

/-- Example state with an empty registry and composite mode off. -/
def stEmpty : DVGeoSketch :=
  { fileName := "wing.csm", modelScale := 1, meshScale := 1, projTol := 1/100,
    updatedJac := [], DVs := [], useCompostiveDVs := false,
    DVComposite := none }

/-! ## Association-list dictionary lemmas -/

/-- A key absent from the key list looks up to `none`. -/
theorem dictGet_eq_none_of_not_mem {V : Type} {k : String} {d : Dict V}
    (h : k ∉ dictKeys d) : dictGet k d = none := by
  induction d with
  | nil => rfl
  | cons p rest ih =>
    simp only [dictKeys, List.map_cons, List.mem_cons, not_or] at h
    have hp : ¬p.1 = k := fun hh => h.1 hh.symm
    simp [dictGet, hp, ih (by simpa [dictKeys] using h.2)]

/-- A key present in the key list looks up to something. -/
theorem isSome_dictGet_of_mem_keys {V : Type} {k : String} {d : Dict V}
    (h : k ∈ dictKeys d) : (dictGet k d).isSome := by
  induction d with
  | nil => simp [dictKeys] at h
  | cons p rest ih =>
    by_cases hp : p.1 = k
    · simp [dictGet, hp]
    · simp only [dictKeys, List.map_cons, List.mem_cons] at h
      rcases h with h | h
      · exact absurd h.symm hp
      · simp [dictGet, hp, ih (by simpa [dictKeys] using h)]

/-- A successful lookup exhibits a binding in the list. -/
theorem mem_of_dictGet_eq_some {V : Type} {k : String} {v : V} {d : Dict V}
    (h : dictGet k d = some v) : (k, v) ∈ d := by
  induction d with
  | nil => simp [dictGet] at h
  | cons p rest ih =>
    by_cases hp : p.1 = k
    · simp only [dictGet, if_pos hp, Option.some.injEq] at h
      rw [← hp, ← h]
      exact List.mem_cons_self _ _
    · simp only [dictGet, if_neg hp] at h
      exact List.mem_cons_of_mem _ (ih h)

/-- Assignment then lookup of the same key yields the assigned value. -/
theorem dictGet_dictSet_self {V : Type} (k : String) (v : V) (d : Dict V) :
    dictGet k (dictSet k v d) = some v := by
  induction d with
  | nil => simp [dictSet, dictGet]
  | cons p rest ih =>
    by_cases hp : p.1 = k
    · simp [dictSet, dictGet, hp]
    · simp [dictSet, dictGet, hp, ih]

/-- Assignment leaves lookups of other keys unchanged. -/
theorem dictGet_dictSet_ne {V : Type} {k kset : String} (h : k ≠ kset) (v : V)
    (d : Dict V) : dictGet k (dictSet kset v d) = dictGet k d := by
  induction d with
  | nil => simp [dictSet, dictGet, Ne.symm h]
  | cons p rest ih =>
    by_cases hp : p.1 = kset
    · simp [dictSet, dictGet, hp, Ne.symm h]
    · simp only [dictSet, if_neg hp, dictGet]
      by_cases hk : p.1 = k
      · simp [hk]
      · simp [hk, ih]

/-- Folding assignments whose keys avoid `k` leaves the lookup of `k` alone. -/
theorem dictGet_foldl_dictSet_of_not_mem {V : Type} {k : String} (l : Dict V)
    (d : Dict V) (h : k ∉ dictKeys l) :
    dictGet k (l.foldl (fun acc p => dictSet p.1 p.2 acc) d) = dictGet k d := by
  induction l generalizing d with
  | nil => rfl
  | cons p rest ih =>
    simp only [dictKeys, List.map_cons, List.mem_cons, not_or] at h
    rw [List.foldl_cons, ih _ (by simpa [dictKeys] using h.2),
      dictGet_dictSet_ne h.1 p.2 d]

/-- Folding assignments from a list with distinct keys: a key bound in the list
looks up to its bound value afterwards, whatever the starting dictionary. -/
theorem dictGet_foldl_dictSet_of_mem {V : Type} {k : String} {v : V}
    (l : Dict V) (d : Dict V) (hnd : (dictKeys l).Nodup) (h : (k, v) ∈ l) :
    dictGet k (l.foldl (fun acc p => dictSet p.1 p.2 acc) d) = some v := by
  induction l generalizing d with
  | nil => simp at h
  | cons p rest ih =>
    obtain ⟨p1, p2⟩ := p
    rw [List.foldl_cons]
    simp only [dictKeys, List.map_cons, List.nodup_cons] at hnd
    rcases List.mem_cons.mp h with heq | hmem
    · injection heq with hk hv
      subst hk
      subst hv
      rw [dictGet_foldl_dictSet_of_not_mem rest _
          (by simpa [dictKeys] using hnd.1),
        dictGet_dictSet_self]
    · exact ih _ (by simpa [dictKeys] using hnd.2) hmem

/-- Assignment never removes a key: lookups that succeeded still succeed. -/
theorem isSome_dictGet_dictSet {V : Type} {k : String} (kset : String) (v : V)
    (d : Dict V) (h : (dictGet k d).isSome) :
    (dictGet k (dictSet kset v d)).isSome := by
  by_cases hk : k = kset
  · subst hk
    rw [dictGet_dictSet_self]
    rfl
  · rwa [dictGet_dictSet_ne hk]

/-- Folding assignments never removes keys. -/
theorem isSome_dictGet_foldl_dictSet {V : Type} {k : String} (l : Dict V)
    (d : Dict V) (h : (dictGet k d).isSome) :
    (dictGet k (l.foldl (fun acc p => dictSet p.1 p.2 acc) d)).isSome := by
  induction l generalizing d with
  | nil => exact h
  | cons p rest ih =>
    exact List.foldl_cons .. ▸ ih _ (isSome_dictGet_dictSet p.1 p.2 d h)

/-- Removing a different key keeps a binding. -/
theorem mem_dictRemove_of_ne {V : Type} {k kr : String} {v : V} {d : Dict V}
    (h : (k, v) ∈ d) (hne : k ≠ kr) : (k, v) ∈ dictRemove kr d := by
  induction d with
  | nil => simp at h
  | cons p rest ih =>
    by_cases hp : p.1 = kr
    · simp only [dictRemove, if_pos hp]
      rcases List.mem_cons.mp h with heq | hmem
      · exact absurd (by rw [← heq] at hp; exact hp) hne
      · exact hmem
    · simp only [dictRemove, if_neg hp]
      rcases List.mem_cons.mp h with heq | hmem
      · exact heq ▸ List.mem_cons_self _ _
      · exact List.mem_cons_of_mem _ (ih hmem)

/-- Removal only ever drops keys. -/
theorem dictKeys_dictRemove_sublist {V : Type} (k : String) (d : Dict V) :
    List.Sublist (dictKeys (dictRemove k d)) (dictKeys d) := by
  induction d with
  | nil => simp [dictRemove, dictKeys]
  | cons p rest ih =>
    by_cases hp : p.1 = k
    · simp only [dictRemove, if_pos hp, dictKeys, List.map_cons]
      exact List.sublist_cons_self _ _
    · simp only [dictRemove, if_neg hp, dictKeys, List.map_cons]
      exact List.Sublist.cons₂ _ ih

/-- With distinct keys, removing `k` removes it from the key list entirely. -/
theorem not_mem_dictKeys_dictRemove_self {V : Type} {k : String} {d : Dict V}
    (hnd : (dictKeys d).Nodup) : k ∉ dictKeys (dictRemove k d) := by
  induction d with
  | nil => simp [dictRemove, dictKeys]
  | cons p rest ih =>
    simp only [dictKeys, List.map_cons, List.nodup_cons] at hnd
    by_cases hp : p.1 = k
    · simp only [dictRemove, if_pos hp]
      rw [← hp]
      simpa [dictKeys] using hnd.1
    · simp only [dictRemove, if_neg hp, dictKeys, List.map_cons, List.mem_cons,
        not_or]
      exact ⟨fun hh => hp hh.symm, ih (by simpa [dictKeys] using hnd.2)⟩

/-- Splitting a vector over the registry produces exactly the registry's keys. -/
theorem dictKeys_splitByDVs (l : Dict DesignVariable) (v : List ℚ) :
    dictKeys (splitByDVs l v) = dictKeys l := by
  induction l generalizing v with
  | nil => rfl
  | cons p rest ih =>
    simp only [splitByDVs, dictKeys, List.map_cons, List.cons.injEq]
    exact ⟨trivial, ih _⟩

/-- Assigning a fresh key appends it at the end. -/
theorem dictSet_eq_append_of_not_mem {V : Type} {k : String} {d : Dict V}
    (h : k ∉ dictKeys d) (v : V) : dictSet k v d = d ++ [(k, v)] := by
  induction d with
  | nil => rfl
  | cons p rest ih =>
    simp only [dictKeys, List.map_cons, List.mem_cons, not_or] at h
    have hp : ¬p.1 = k := fun hh => h.1 hh.symm
    simp [dictSet, hp, ih (by simpa [dictKeys] using h.2)]

/-- Folding assignments of fresh, pairwise-distinct keys appends them in order. -/
theorem foldl_dictSet_eq_append {V : Type} (l : Dict V) (d : Dict V)
    (hdisj : ∀ k ∈ dictKeys l, k ∉ dictKeys d) (hnd : (dictKeys l).Nodup) :
    l.foldl (fun acc p => dictSet p.1 p.2 acc) d = d ++ l := by
  induction l generalizing d with
  | nil => simp
  | cons p rest ih =>
    simp only [dictKeys, List.map_cons, List.nodup_cons] at hnd
    have hp : p.1 ∉ dictKeys d := hdisj p.1 (by simp [dictKeys])
    have hd : ∀ k ∈ dictKeys rest, k ∉ dictKeys (d ++ [(p.1, p.2)]) := by
      intro k hk
      have hkrest : k ∈ List.map Prod.fst rest := by simpa [dictKeys] using hk
      simp only [dictKeys, List.map_append, List.mem_append, List.map_cons,
        List.map_nil, List.mem_cons, List.not_mem_nil, or_false, not_or]
      constructor
      · exact fun hkd => hdisj k (by simp [dictKeys, hkrest]) hkd
      · exact fun hkp => hnd.1 (hkp ▸ hkrest)
    rw [List.foldl_cons, dictSet_eq_append_of_not_mem hp p.2,
      ih (d ++ [(p.1, p.2)]) hd (by simpa [dictKeys] using hnd.2),
      List.append_assoc]
    rfl

/-! ## Claim theorems -/

/-- C10: the constructor divides by `scale` without a guard, so `scale = 0`
fails with a division-by-zero error; for `scale ≠ 0` construction succeeds and
stores `modelScale = scale`, `meshScale = 1/scale`, and a projection tolerance
equal to `projTol * (1/scale)`. -/
theorem DVGeoSketch.init_div_by_scale (fn : String) (scale projTol : ℚ) :
    DVGeoSketch.init fn 0 projTol = .error .zeroDivisionError
    ∧ (scale ≠ 0 → ∃ st : DVGeoSketch, DVGeoSketch.init fn scale projTol = .ok st
        ∧ st.modelScale = scale ∧ st.meshScale = 1 / scale
        ∧ st.projTol = projTol * (1 / scale)) := by
  constructor
  · simp [DVGeoSketch.init]
  · intro h
    simp only [DVGeoSketch.init, if_neg h]
    exact ⟨_, rfl, rfl, rfl, rfl⟩

/-- Witness for C10 at `scale = 2`, `projTol = 1/100`. -/
theorem DVGeoSketch.init_div_by_scale_witness :
    DVGeoSketch.init "model.csm" 0 (1/100) = .error .zeroDivisionError
    ∧ ((2 : ℚ) ≠ 0 → ∃ st : DVGeoSketch, DVGeoSketch.init "model.csm" 2 (1/100) = .ok st
        ∧ st.modelScale = 2 ∧ st.meshScale = 1 / 2
        ∧ st.projTol = (1/100) * (1 / 2)) :=
  DVGeoSketch.init_div_by_scale "model.csm" 2 (1/100)

/-- C1 counterexample: with point set `"wing"` and base path `"out"`, if the
write of the 1-D point list raises after the file is opened, the method
propagates the error and `closeTecplot` is never called — the handle leaks. -/
theorem writePointSet_leaks_handle_on_write_failure :
    FileEvent.closed ∉
      (writePointSet (fun _ => [((0 : ℚ), (0 : ℚ), (0 : ℚ))]) false "wing" "out").2
    ∧ (writePointSet (fun _ => [((0 : ℚ), (0 : ℚ), (0 : ℚ))]) false "wing" "out").1
        = .error .writeError := by
  constructor
  · simp [writePointSet]
  · rfl

/-- C1 amended: the file handle is closed exactly on the normal exit path — it
is closed when the write succeeds, and not closed (the handle leaks) when the
write of the 1-D point list raises. -/
theorem writePointSet_close_iff_write_succeeds (update : String → List Point3)
    (writeOk : Bool) (name fileName : String) :
    FileEvent.closed ∈ (writePointSet update writeOk name fileName).2
      ↔ writeOk = true := by
  cases writeOk <;> simp [writePointSet]

/-- C9: `writePointSet(name, fileName)` opens the file named
`fileName ++ "_" ++ name ++ ".dat"` and writes to it exactly the coordinates
returned by the point-set update hook for `name`, in the same order, then
closes it. -/
theorem writePointSet_file_name_and_contents (update : String → List Point3)
    (name fileName : String) :
    (writePointSet update true name fileName).2 =
      [.opened (fileName ++ "_" ++ name ++ ".dat") 3,
       .wrote name (update name),
       .closed] := rfl

/-- C4: with the optimizer flag set, `getVarNames` returns the singleton list
of the composite DV's name if and only if composite mode is active; in every
other case (flag unset, or composite mode inactive) it returns the names of
all individual DVs in registry insertion order. -/
theorem getVarNames_singleton_iff_composite (st : DVGeoSketch) (c : CompositeDV)
    (hc : st.DVComposite = some c)
    (hname : c.name ∉ dictKeys st.DVs) :
    (st.getVarNames true = .ok [c.name] ↔ st.useCompostiveDVs = true)
    ∧ (st.useCompostiveDVs = false →
        st.getVarNames true = .ok (dictKeys st.DVs))
    ∧ st.getVarNames false = .ok (dictKeys st.DVs) := by
  have h3 : st.getVarNames false = .ok (dictKeys st.DVs) := by
    simp [DVGeoSketch.getVarNames]
  cases hb : st.useCompostiveDVs with
  | false =>
    have h1 : st.getVarNames true = .ok (dictKeys st.DVs) := by
      simp [DVGeoSketch.getVarNames, hb]
    refine ⟨⟨fun h => ?_, fun h => Bool.noConfusion h⟩, fun _ => h1, h3⟩
    rw [h1, Except.ok.injEq] at h
    exact (hname (by rw [h]; exact List.mem_singleton_self c.name)).elim
  | true =>
    have h1 : st.getVarNames true = .ok [c.name] := by
      simp [DVGeoSketch.getVarNames, hb, hc]
    exact ⟨⟨fun _ => rfl, fun _ => h1⟩, fun h => Bool.noConfusion h, h3⟩

/-- Witness for C4 at the example registry state. -/
theorem getVarNames_singleton_iff_composite_witness :
    (stExample.getVarNames true = .ok [compExample.name]
        ↔ stExample.useCompostiveDVs = true)
    ∧ (stExample.useCompostiveDVs = false →
        stExample.getVarNames true = .ok (dictKeys stExample.DVs))
    ∧ stExample.getVarNames false = .ok (dictKeys stExample.DVs) :=
  getVarNames_singleton_iff_composite stExample compExample rfl (by decide)

/-- The bound dictionaries built by the loops in `addVariablesPyOpt`
(`lb[dvName] = dv.lower`), flattened by `convertDictToSensitivity`, are the
plain concatenation of the per-DV vectors in registry order, provided the
registry keys are distinct. -/
theorem convertDictToSensitivity_loop (st : DVGeoSketch)
    (f : DesignVariable → List ℚ) (hnd : (dictKeys st.DVs).Nodup) :
    st.convertDictToSensitivity
        (st.DVs.foldl (fun acc p => dictSet p.1 (f p.2) acc) [])
      = (st.DVs.map (fun p => f p.2)).flatten := by
  unfold DVGeoSketch.convertDictToSensitivity
  congr 1
  apply List.map_congr_left
  intro p hp
  have hkeys : dictKeys (st.DVs.map (fun q => (q.1, f q.2))) = dictKeys st.DVs := by
    simp [dictKeys, List.map_map]
  have hget : dictGet p.1 ((st.DVs.map (fun q => (q.1, f q.2))).foldl
      (fun acc q => dictSet q.1 q.2 acc) []) = some (f p.2) :=
    dictGet_foldl_dictSet_of_mem _ _ (by rw [hkeys]; exact hnd)
      (List.mem_map_of_mem (fun q => (q.1, f q.2)) hp)
  calc (dictGet p.1 (st.DVs.foldl
          (fun acc p => dictSet p.1 (f p.2) acc) [])).getD []
      = (dictGet p.1 ((st.DVs.map (fun q => (q.1, f q.2))).foldl
          (fun acc q => dictSet q.1 q.2 acc) [])).getD [] := by
        rw [List.foldl_map]
    _ = f p.2 := by rw [hget]; rfl

/-- C2: in composite mode `addVariablesPyOpt` registers exactly one variable
group — the composite DV's, of size its length, with its value, bounds and
scale — and exactly one linear constraint group named `name ++ "_con"` whose
size is the total number of individual DV scalars and whose Jacobian is exactly
the stored composite map `u`, and registers nothing else (no individual DV). -/
theorem addVariablesPyOpt_composite_single_groups (st : DVGeoSketch)
    (dv : CompositeDV) (hflag : st.useCompostiveDVs = true)
    (hc : st.DVComposite = some dv) :
    ∃ lb ub : List ℚ,
      st.addVariablesPyOpt =
        .ok [.varGroup dv.name dv.value.length dv.value dv.lower dv.upper dv.scale,
             .conGroup (dv.name ++ "_con")
               ((st.DVs.map (fun p => p.2.value.length)).sum)
               lb ub 1 true dv.name dv.name dv.u] := by
  refine ⟨st.convertDictToSensitivity
      (st.DVs.foldl (fun acc p => dictSet p.1 p.2.lower acc) []),
    st.convertDictToSensitivity
      (st.DVs.foldl (fun acc p => dictSet p.1 p.2.upper acc) []), ?_⟩
  simp only [DVGeoSketch.addVariablesPyOpt, hflag, if_true, hc]
  rfl

/-- Witness for C2 at the example registry state. -/
theorem addVariablesPyOpt_composite_single_groups_witness :
    ∃ lb ub : List ℚ,
      stExample.addVariablesPyOpt =
        .ok [.varGroup compExample.name compExample.value.length
               compExample.value compExample.lower compExample.upper
               compExample.scale,
             .conGroup (compExample.name ++ "_con")
               ((stExample.DVs.map (fun p => p.2.value.length)).sum)
               lb ub 1 true compExample.name compExample.name compExample.u] :=
  addVariablesPyOpt_composite_single_groups stExample compExample rfl rfl

/-- C3 counterexample: at the example state (two individual DVs of 4 scalars
total, composite length 2, `u` the 4×2 column-duplicating map) the bounds
passed to the linear constraint group are the untransformed full-space
concatenations `[-5,-5,-5,-1]` / `[5,5,5,1]`: they have length 4, not the
composite length 2, so they are not composite-space vectors, and the lower
bound is not the image of any vector under the stored linear map `u` — the map
is never applied to the bounds. -/
theorem addVariablesPyOpt_bounds_not_composite_space :
    stExample.addVariablesPyOpt =
      .ok [.varGroup "composite" 2 [0, 0] [-10, -10] [10, 10] [1, 1],
           .conGroup "composite_con" 4 [-5, -5, -5, -1] [5, 5, 5, 1]
             1 true "composite" "composite" [[1, 0], [0, 1], [1, 0], [0, 1]]]
    ∧ ([-5, -5, -5, -1] : List ℚ).length ≠ compExample.nVal
    ∧ ∀ v : List ℚ, matVecMul compExample.u v ≠ [-5, -5, -5, -1] := by
  refine ⟨by rfl, by decide, ?_⟩
  intro v h
  simp only [matVecMul, compExample, List.map_cons, List.map_nil,
    List.cons.injEq, and_true] at h
  obtain ⟨h1, h2, h3, h4⟩ := h
  rw [h2] at h4
  norm_num at h4

/-- C3 amended: in composite mode the lower and upper bounds passed to the
linear constraint group are the plain concatenated lower/upper bounds of all
individual DVs in registry order; they stay in full space and the stored linear
map is not applied to them. -/
theorem addVariablesPyOpt_bounds_concatenated (st : DVGeoSketch)
    (dv : CompositeDV) (hflag : st.useCompostiveDVs = true)
    (hc : st.DVComposite = some dv) (hnd : (dictKeys st.DVs).Nodup) :
    st.addVariablesPyOpt =
      .ok [.varGroup dv.name dv.nVal dv.value dv.lower dv.upper dv.scale,
           .conGroup (dv.name ++ "_con") st.getNDV
             ((st.DVs.map (fun p => p.2.lower)).flatten)
             ((st.DVs.map (fun p => p.2.upper)).flatten)
             1 true dv.name dv.name dv.u] := by
  simp only [DVGeoSketch.addVariablesPyOpt, hflag, if_true, hc]
  rw [convertDictToSensitivity_loop st (fun q => q.lower) hnd,
    convertDictToSensitivity_loop st (fun q => q.upper) hnd]

/-- Witness for the amended C3 at the example registry state. -/
theorem addVariablesPyOpt_bounds_concatenated_witness :
    stExample.addVariablesPyOpt =
      .ok [.varGroup compExample.name compExample.nVal compExample.value
             compExample.lower compExample.upper compExample.scale,
           .conGroup (compExample.name ++ "_con") stExample.getNDV
             ((stExample.DVs.map (fun p => p.2.lower)).flatten)
             ((stExample.DVs.map (fun p => p.2.upper)).flatten)
             1 true compExample.name compExample.name compExample.u] :=
  addVariablesPyOpt_bounds_concatenated stExample compExample rfl rfl (by decide)

/-- C6: the caller's input dictionary object is unmodified after
`mapXDictToDVGeo` — the same keys map to the same values before and after —
whether the call returns normally or fails: the method deep-copies the input
and every mutation acts on the copy. -/
theorem mapXDictToDVGeo_preserves_caller (st : DVGeoSketch)
    (inDict : Dict (List ℚ)) :
    (st.mapXDictToDVGeoTracked inDict).callerDict = inDict := by
  simp only [DVGeoSketch.mapXDictToDVGeoTracked]
  cases st.DVComposite with
  | none => rfl
  | some comp =>
    dsimp only
    cases dictGet comp.name inDict with
    | none => rfl
    | some userVec => rfl

/-- C5: with composite mode active, `mapXDictToDVGeo` on an input dictionary
lacking the composite DV's key fails with an error (the `KeyError` raised by
`dict.pop`) instead of returning a dictionary. -/
theorem mapXDictToDVGeo_missing_key_errors (st : DVGeoSketch)
    (comp : CompositeDV) (inDict : Dict (List ℚ))
    (_hflag : st.useCompostiveDVs = true)
    (hc : st.DVComposite = some comp)
    (hmiss : dictGet comp.name inDict = none) :
    st.mapXDictToDVGeo inDict = .error .keyError := by
  simp only [DVGeoSketch.mapXDictToDVGeo, DVGeoSketch.mapXDictToDVGeoTracked,
    hc, hmiss]

/-- Witness for C5: the example composite-mode state and an input dictionary
without the `"composite"` key. -/
theorem mapXDictToDVGeo_missing_key_errors_witness :
    stExample.mapXDictToDVGeo [("other", [1])] = .error .keyError :=
  mapXDictToDVGeo_missing_key_errors stExample compExample [("other", [1])]
    rfl rfl (by decide)

/-- C7: when the input dictionary contains the composite DV's key, the returned
dictionary passes every other input key through with its input value, does not
contain the composite name, and contains a binding for every key produced by
converting the composite entry to full space via the linear map. -/
theorem mapXDictToDVGeo_merge (st : DVGeoSketch) (comp : CompositeDV)
    (inDict : Dict (List ℚ)) (v : List ℚ)
    (hc : st.DVComposite = some comp)
    (hkey : dictGet comp.name inDict = some v)
    (hnd : (dictKeys inDict).Nodup)
    (hname : comp.name ∉ dictKeys st.DVs) :
    ∃ outDict : Dict (List ℚ),
      st.mapXDictToDVGeo inDict = .ok outDict
      ∧ (∀ k val, k ≠ comp.name → dictGet k inDict = some val →
          dictGet k outDict = some val)
      ∧ dictGet comp.name outDict = none
      ∧ ∀ k, k ∈ dictKeys (st.convertSensitivityToDict (comp.mapVecToDVGeo v)) →
          (dictGet k outDict).isSome := by
  have hndRest : (dictKeys (dictRemove comp.name inDict)).Nodup :=
    List.Nodup.sublist (dictKeys_dictRemove_sublist comp.name inDict) hnd
  refine ⟨(dictRemove comp.name inDict).foldl (fun acc p => dictSet p.1 p.2 acc)
      (st.convertSensitivityToDict (comp.mapVecToDVGeo v)), ?_, ?_, ?_, ?_⟩
  · simp only [DVGeoSketch.mapXDictToDVGeo, DVGeoSketch.mapXDictToDVGeoTracked,
      hc, hkey]
  · intro k val hk hkin
    exact dictGet_foldl_dictSet_of_mem _ _ hndRest
      (mem_dictRemove_of_ne (mem_of_dictGet_eq_some hkin) hk)
  · rw [dictGet_foldl_dictSet_of_not_mem _ _
      (not_mem_dictKeys_dictRemove_self hnd)]
    apply dictGet_eq_none_of_not_mem
    unfold DVGeoSketch.convertSensitivityToDict
    rw [dictKeys_splitByDVs]
    exact hname
  · intro k hkmem
    exact isSome_dictGet_foldl_dictSet _ _ (isSome_dictGet_of_mem_keys hkmem)

/-- Witness for C7: the example composite-mode state and an input dictionary
holding the composite entry `[1, 2]` plus an unrelated key `"other"`. -/
theorem mapXDictToDVGeo_merge_witness :
    ∃ outDict : Dict (List ℚ),
      stExample.mapXDictToDVGeo [("composite", [1, 2]), ("other", [7])]
        = .ok outDict
      ∧ (∀ k val, k ≠ compExample.name →
          dictGet k [("composite", [1, 2]), ("other", [7])] = some val →
          dictGet k outDict = some val)
      ∧ dictGet compExample.name outDict = none
      ∧ ∀ k, k ∈ dictKeys (stExample.convertSensitivityToDict
            (compExample.mapVecToDVGeo [1, 2])) →
          (dictGet k outDict).isSome :=
  mapXDictToDVGeo_merge stExample compExample
    [("composite", [1, 2]), ("other", [7])] [1, 2]
    rfl (by decide) (by decide) (by decide)

/-- Folding `addVariable` insertions appends the corresponding bindings to the
registry, in call order. -/
theorem DVs_foldl_addVariable (st0 : DVGeoSketch) (dvs : List DesignVariable) :
    (dvs.foldl DVGeoSketch.addVariable st0).DVs
      = st0.DVs ++ dvs.map (fun dv => (dv.name, dv)) := by
  induction dvs generalizing st0 with
  | nil => simp
  | cons dv rest ih =>
    rw [List.foldl_cons, ih]
    simp [DVGeoSketch.addVariable, List.append_assoc]

/-- `addVariable` does not toggle composite mode. -/
theorem useCompostiveDVs_foldl_addVariable (st0 : DVGeoSketch)
    (dvs : List DesignVariable) :
    (dvs.foldl DVGeoSketch.addVariable st0).useCompostiveDVs
      = st0.useCompostiveDVs := by
  induction dvs generalizing st0 with
  | nil => rfl
  | cons dv rest ih =>
    rw [List.foldl_cons, ih]
    rfl

/-- C8: with composite mode inactive, `getValues` on a registry built by
`addVariable` insertions with pairwise-distinct names returns a dictionary
whose keys are exactly those names, in insertion order, each mapped to that
DV's stored (last-set) value — whatever the composite mapping hook is. -/
theorem getValues_non_composite (st0 : DVGeoSketch) (dvs : List DesignVariable)
    (mapXDictToComp : Dict (List ℚ) → Dict (List ℚ))
    (h0 : st0.DVs = [])
    (hflag : st0.useCompostiveDVs = false)
    (hnd : (dvs.map DesignVariable.name).Nodup) :
    (dvs.foldl DVGeoSketch.addVariable st0).getValues mapXDictToComp
      = dvs.map (fun dv => (dv.name, dv.value)) := by
  have hDVs : (dvs.foldl DVGeoSketch.addVariable st0).DVs
      = dvs.map (fun dv => (dv.name, dv)) := by
    rw [DVs_foldl_addVariable, h0, List.nil_append]
  simp only [DVGeoSketch.getValues, useCompostiveDVs_foldl_addVariable, hflag,
    Bool.false_eq_true, if_false, hDVs]
  have h1 : (dvs.map (fun dv => (dv.name, dv))).foldl
      (fun acc p => dictSet p.1 p.2.value acc) []
      = (dvs.map (fun dv => (dv.name, dv.value))).foldl
      (fun acc p => dictSet p.1 p.2 acc) [] := by
    rw [List.foldl_map, List.foldl_map]
  rw [h1, foldl_dictSet_eq_append _ [] (by simp [dictKeys])
      (by simpa [dictKeys, List.map_map, Function.comp] using hnd),
    List.nil_append]

/-- Witness for C8: the empty state with the scenario's two DVs inserted. -/
theorem getValues_non_composite_witness :
    ([dvTwist, dvShape].foldl DVGeoSketch.addVariable stEmpty).getValues id
      = [dvTwist, dvShape].map (fun dv => (dv.name, dv.value)) :=
  getValues_non_composite stEmpty [dvTwist, dvShape] id rfl rfl (by decide)
